import Mathlib

/-!
Verification development for the loxide interpreter core
(scanner, recursive-descent parser, tree-walk evaluator).

The Rust source is embedded shallowly:

* Rust `f64` is modelled by `F64`: an exact-rational carrier `Q`
  (an unreduced numerator/denominator pair, denominator kept positive)
  together with explicit `inf`/`nan` special values.  Rounding, overflow
  and the sign of zero are not modelled; none of the verified claims
  depend on them.  The IEEE-754 special-value rules (NaN propagation,
  NaN incomparability, division by zero producing an infinity or NaN)
  are modelled explicitly.
* Rust `Rc<dyn Any>` / `Rc<dyn Display>` dynamic payloads are modelled by
  the closed union `LoxVal` (number / string / boolean); the only
  payloads the program ever creates are of these three types, and every
  `downcast_ref` in the source corresponds to a constructor match.
* A Rust panic (an `unwrap` of `None`, or an out-of-bounds slice
  `unwrap`) is modelled by the value `none` of an `Option` wrapper on
  the result type.  Fallible operations keep their `Result` shape as
  `Except`.
* Rust `String::get` over byte ranges is modelled by `strGet`, which is
  UTF-8 byte-accurate: it fails (returns `none`) on out-of-range or
  non-character-boundary indices, exactly as `str::get` does.
* `char::is_numeric` / `char::is_alphabetic` / `char::is_alphanumeric`
  are modelled on the ASCII range (`Char.isDigit` / `Char.isAlpha` /
  `Char.isAlphanum`); the full Unicode tables are not reproduced.  All
  concrete inputs used to settle claims are ASCII.
* Loops are modelled either structurally over the remaining character
  list (the scanner's inner `while` loops) or with an explicit fuel
  parameter (the scanner's token loop, the parser's mutually recursive
  grammar rules); the fuel supplied is always sufficient for the loops'
  actual behaviour, and exhaustion is mapped to `none`.
-/

/-- Unreduced rational number: the exact-value carrier standing in for
finite IEEE-754 binary64 values.  The operations below keep `den`
positive; values are compared with `Q.beq` (cross multiplication), which
matches comparison-by-value of Rust `f64`. -/
structure Q where
  num : Int
  den : Int
deriving DecidableEq, Repr

def Q.beq (a b : Q) : Bool :=
  a.num * b.den = b.num * a.den

def Q.add (a b : Q) : Q :=
  ⟨a.num * b.den + b.num * a.den, a.den * b.den⟩

def Q.neg (a : Q) : Q :=
  ⟨-a.num, a.den⟩

def Q.sub (a b : Q) : Q :=
  a.add b.neg

def Q.mul (a b : Q) : Q :=
  ⟨a.num * b.num, a.den * b.den⟩

/-- Exact division; only used with `b.num ≠ 0`.  The denominator is kept
positive by moving the divisor's sign to the numerator. -/
def Q.div (a b : Q) : Q :=
  if 0 ≤ b.num then ⟨a.num * b.den, a.den * b.num⟩
  else ⟨-(a.num * b.den), a.den * (-b.num)⟩

def Q.lt (a b : Q) : Bool :=
  a.num * b.den < b.num * a.den

def Q.le (a b : Q) : Bool :=
  a.num * b.den ≤ b.num * a.den

/-- Model of Rust `f64`: exact rationals plus the IEEE-754 special
values.  `inf true` is negative infinity. -/
inductive F64 where
  | finite (q : Q)
  | inf (neg : Bool)
  | nan
deriving DecidableEq, Repr

/-- Rust `f64` equality (`==`): NaN compares unequal to everything,
finite values compare by value. -/
def F64.beq : F64 → F64 → Bool
  | .nan, _ => false
  | _, .nan => false
  | .inf s, .inf t => s = t
  | .finite a, .finite b => a.beq b
  | _, _ => false

def F64.neg : F64 → F64
  | .nan => .nan
  | .inf s => .inf (!s)
  | .finite q => .finite q.neg

def F64.add : F64 → F64 → F64
  | .nan, _ => .nan
  | _, .nan => .nan
  | .inf s, .inf t => if s = t then .inf s else .nan
  | .inf s, .finite _ => .inf s
  | .finite _, .inf t => .inf t
  | .finite a, .finite b => .finite (a.add b)

def F64.sub (a b : F64) : F64 :=
  a.add b.neg

def F64.mul : F64 → F64 → F64
  | .nan, _ => .nan
  | _, .nan => .nan
  | .inf s, .inf t => .inf (s != t)
  | .inf s, .finite q => if q.num = 0 then .nan else .inf (s != decide (q.num < 0))
  | .finite q, .inf t => if q.num = 0 then .nan else .inf (t != decide (q.num < 0))
  | .finite a, .finite b => .finite (a.mul b)

/-- IEEE-754 division on the model: a zero divisor produces an infinity
(or NaN for 0/0), never an error. -/
def F64.div : F64 → F64 → F64
  | .nan, _ => .nan
  | _, .nan => .nan
  | .inf _, .inf _ => .nan
  | .inf s, .finite q => .inf (s != decide (q.num < 0))
  | .finite _, .inf _ => .finite ⟨0, 1⟩
  | .finite a, .finite b =>
    if b.num = 0 then (if a.num = 0 then .nan else .inf (decide (a.num < 0)))
    else .finite (a.div b)

def F64.lt : F64 → F64 → Bool
  | .nan, _ => false
  | _, .nan => false
  | .inf s, .inf t => s && !t
  | .inf s, .finite _ => s
  | .finite _, .inf t => !t
  | .finite a, .finite b => a.lt b

def F64.le : F64 → F64 → Bool
  | .nan, _ => false
  | _, .nan => false
  | .inf s, .inf t => s || !t
  | .inf s, .finite _ => s
  | .finite _, .inf t => !t
  | .finite a, .finite b => a.le b

def F64.gt (a b : F64) : Bool := F64.lt b a

def F64.ge (a b : F64) : Bool := F64.le b a

/-- The closed union of runtime payload types the program stores behind
`Rc<dyn Any>` / `Rc<dyn Display>`: 64-bit floats, strings and booleans.
A `downcast_ref::<T>` in the source is a match on the corresponding
constructor here. -/
inductive LoxVal where
  | num (x : F64)
  | str (s : String)
  | bool (b : Bool)
deriving DecidableEq, Repr

/-- Runtime type tag, used to state type-sensitivity of equality. -/
inductive LoxType where
  | number
  | text
  | boolean
deriving DecidableEq, Repr

def LoxVal.ty : LoxVal → LoxType
  | .num _ => .number
  | .str _ => .text
  | .bool _ => .boolean

/-- src/scanner/token.rs `TokenType`. -/
inductive TokenType where
  | LeftParen
  | RightParen
  | LeftBrace
  | RightBrace
  | Comma
  | Dot
  | Minus
  | Plus
  | Semicolon
  | Slash
  | Star
  | Bang
  | BangEqual
  | Equal
  | EqualEqual
  | Greater
  | GreaterEqual
  | Less
  | LessEqual
  | Identifier
  | String
  | Number
  | And
  | Class
  | Else
  | False
  | Fun
  | For
  | If
  | Nil
  | Or
  | Print
  | Return
  | Super
  | This
  | True
  | Var
  | While
  | Eof
deriving DecidableEq, Repr

/-- src/scanner/token.rs `Token`.  The `literal` payload (`Option<Rc<dyn
Display>>` in the source, only ever a number or a string) is modelled
with the closed union `LoxVal`. -/
structure Token where
  token_type : TokenType
  lexeme : String
  literal : Option LoxVal
  line : Nat
deriving DecidableEq, Repr

/-- src/parser/expr.rs `Expr`. -/
inductive Expr where
  | binary (left : Expr) (operator : Token) (right : Expr)
  | grouping (expression : Expr)
  | literal (value : Option LoxVal)
  | unary (operator : Token) (right : Expr)
deriving DecidableEq, Repr

/-- src/parser/expr.rs `RuntimeError`. -/
structure RuntimeError where
  token : Token
  message : String
deriving DecidableEq, Repr

instance {ε α : Type} [DecidableEq ε] [DecidableEq α] : DecidableEq (Except ε α)
  | .ok a, .ok b =>
    if h : a = b then .isTrue (by rw [h]) else .isFalse (by simp [h])
  | .ok _, .error _ => .isFalse (by simp)
  | .error _, .ok _ => .isFalse (by simp)
  | .error e, .error f =>
    if h : e = f then .isTrue (by rw [h]) else .isFalse (by simp [h])

/-- Evaluation result: `none` models a Rust panic, `Except.error` a
`RuntimeError`, and the inner `Option LoxVal` is the dynamic value
(`None` is the nil value). -/
abbrev EvalResult := Option (Except RuntimeError (Option LoxVal))

/-- src/parser/expr.rs `Expr::is_truthy`: `None` and `false` are falsy,
everything else (a failed bool downcast) is truthy. -/
def is_truthy : Option LoxVal → Bool
  | some v =>
    match v with
    | .bool b => b
    | _ => true
  | none => false

/-- src/parser/expr.rs `Expr::equals`.  The source checks
`a.is_none()` twice and then calls `a.unwrap()` *and* `b.unwrap()`:
when `a` is `Some` and `b` is `None` the second unwrap panics, modelled
here as `none`. -/
def lox_equals : Option LoxVal → Option LoxVal → Option Bool
  | none, none => some true
  | none, some _ => some false
  | some _, none => none
  | some a, some b =>
    some (match a, b with
      | .num x, .num y => x.beq y
      | .bool x, .bool y => x == y
      | .str x, .str y => x == y
      | _, _ => false)

/-- src/parser/expr.rs `Expr::try_convert::<f64>` applied to the result
of `self.interpret()`: a runtime error propagates, a non-number value
(or nil) becomes a `RuntimeError` with the given token and message. -/
def try_convert (res : EvalResult) (token : Token) (message : String) :
    Option (Except RuntimeError F64) :=
  match res with
  | none => none
  | some (.error e) => some (.error e)
  | some (.ok (some (.num x))) => some (.ok x)
  | some (.ok _) => some (.error ⟨token, message⟩)

/-- src/parser/expr.rs `Expr::interpret`.  The seven numeric binary
operators share the conversion code (the source matches them together
and then re-matches the operator, with an `unreachable` default); here
each operator arm applies the shared `numeric` path directly. -/
def Expr.interpret : Expr → EvalResult
  | .literal value => some (.ok value)
  | .grouping e => e.interpret
  | .unary op r =>
    match op.token_type with
    | .Bang =>
      match r.interpret with
      | none => none
      | some (.error e) => some (.error e)
      | some (.ok v) => some (.ok (some (.bool (!is_truthy v))))
    | .Minus =>
      match try_convert r.interpret op "Operand must be a number." with
      | none => none
      | some (.error e) => some (.error e)
      | some (.ok x) => some (.ok (some (.num x.neg)))
    | _ => some (.error ⟨op, "Invalid unary operator."⟩)
  | .binary l op r =>
    let numeric (g : F64 → F64 → LoxVal) : EvalResult :=
      match try_convert l.interpret op "Operands must be numbers." with
      | none => none
      | some (.error e) => some (.error e)
      | some (.ok a) =>
        match try_convert r.interpret op "Operands must be numbers." with
        | none => none
        | some (.error e) => some (.error e)
        | some (.ok b) => some (.ok (some (g a b)))
    match op.token_type with
    | .Minus => numeric fun a b => .num (a.sub b)
    | .Slash => numeric fun a b => .num (a.div b)
    | .Star => numeric fun a b => .num (a.mul b)
    | .Greater => numeric fun a b => .bool (a.gt b)
    | .GreaterEqual => numeric fun a b => .bool (a.ge b)
    | .Less => numeric fun a b => .bool (a.lt b)
    | .LessEqual => numeric fun a b => .bool (a.le b)
    | .Plus =>
      let err : RuntimeError := ⟨op, "Operands must be two numbers or two strings."⟩
      match l.interpret with
      | none => none
      | some (.error e) => some (.error e)
      | some (.ok none) => some (.error err)
      | some (.ok (some lv)) =>
        match r.interpret with
        | none => none
        | some (.error e) => some (.error e)
        | some (.ok none) => some (.error err)
        | some (.ok (some rv)) =>
          match lv, rv with
          | .num a, .num b => some (.ok (some (.num (a.add b))))
          | .str a, .str b => some (.ok (some (.str (a ++ b))))
          | _, _ => some (.error err)
    | .EqualEqual =>
      match l.interpret with
      | none => none
      | some (.error e) => some (.error e)
      | some (.ok a) =>
        match r.interpret with
        | none => none
        | some (.error e) => some (.error e)
        | some (.ok b) =>
          match lox_equals a b with
          | none => none
          | some eq => some (.ok (some (.bool eq)))
    | .BangEqual =>
      match l.interpret with
      | none => none
      | some (.error e) => some (.error e)
      | some (.ok a) =>
        match r.interpret with
        | none => none
        | some (.error e) => some (.error e)
        | some (.ok b) =>
          match lox_equals a b with
          | none => none
          | some eq => some (.ok (some (.bool !eq)))
    | _ => some (.error ⟨op, "Invalid binary operator."⟩)

/-- The shared two-operand numeric conversion path of `Expr::interpret`
(the body of the `numeric` abbreviation inside the `Binary` arm),
spelled as a standalone function so its properties can be proved once
for all seven operators. -/
def numeric_eval (l r : Expr) (op : Token) (g : F64 → F64 → LoxVal) : EvalResult :=
  match try_convert l.interpret op "Operands must be numbers." with
  | none => none
  | some (.error e) => some (.error e)
  | some (.ok a) =>
    match try_convert r.interpret op "Operands must be numbers." with
    | none => none
    | some (.error e) => some (.error e)
    | some (.ok b) => some (.ok (some (g a b)))

theorem numeric_eval_spec (l r : Expr) (op : Token) (g : F64 → F64 → LoxVal)
    (v w : Option LoxVal)
    (hl : l.interpret = some (.ok v)) (hr : r.interpret = some (.ok w)) :
    ((∀ x : F64, v ≠ some (.num x)) →
      numeric_eval l r op g = some (.error ⟨op, "Operands must be numbers."⟩)) ∧
    (∀ x : F64, v = some (.num x) → (∀ y : F64, w ≠ some (.num y)) →
      numeric_eval l r op g = some (.error ⟨op, "Operands must be numbers."⟩)) ∧
    (∀ x y : F64, v = some (.num x) → w = some (.num y) →
      numeric_eval l r op g = some (.ok (some (g x y)))) := by
  refine ⟨?_, ?_, ?_⟩
  · intro hv
    rcases v with _ | lv
    · simp [numeric_eval, try_convert, hl]
    · rcases lv with x | sx | bx
      · exact absurd rfl (hv x)
      · simp [numeric_eval, try_convert, hl]
      · simp [numeric_eval, try_convert, hl]
  · intro x hx hw
    subst hx
    rcases w with _ | rv
    · simp [numeric_eval, try_convert, hl, hr]
    · rcases rv with y | sy | bb
      · exact absurd rfl (hw y)
      · simp [numeric_eval, try_convert, hl, hr]
      · simp [numeric_eval, try_convert, hl, hr]
  · intro x y hx hy
    subst hx
    subst hy
    simp [numeric_eval, try_convert, hl, hr]

theorem interpret_numeric_op (l r : Expr) (op : Token) :
    (op.token_type = .Minus →
      Expr.interpret (.binary l op r) = numeric_eval l r op fun a b => .num (a.sub b)) ∧
    (op.token_type = .Slash →
      Expr.interpret (.binary l op r) = numeric_eval l r op fun a b => .num (a.div b)) ∧
    (op.token_type = .Star →
      Expr.interpret (.binary l op r) = numeric_eval l r op fun a b => .num (a.mul b)) ∧
    (op.token_type = .Greater →
      Expr.interpret (.binary l op r) = numeric_eval l r op fun a b => .bool (a.gt b)) ∧
    (op.token_type = .GreaterEqual →
      Expr.interpret (.binary l op r) = numeric_eval l r op fun a b => .bool (a.ge b)) ∧
    (op.token_type = .Less →
      Expr.interpret (.binary l op r) = numeric_eval l r op fun a b => .bool (a.lt b)) ∧
    (op.token_type = .LessEqual →
      Expr.interpret (.binary l op r) = numeric_eval l r op fun a b => .bool (a.le b)) := by
  refine ⟨?_, ?_, ?_, ?_, ?_, ?_, ?_⟩ <;>
    (intro h; simp only [Expr.interpret, h]; rfl)

/-- A zero divisor always produces an infinity or NaN in the `F64`
model, whatever the dividend. -/
theorem div_by_zero_special (x : F64) (z : Q) (hz : z.num = 0) :
    x.div (.finite z) = .nan ∨ ∃ b : Bool, x.div (.finite z) = .inf b := by
  rcases x with q | s | _
  · by_cases hq : q.num = 0
    · left; simp [F64.div, hz, hq]
    · right; exact ⟨decide (q.num < 0), by simp [F64.div, hz, hq]⟩
  · right; exact ⟨_, rfl⟩
  · left; rfl

theorem numeric_case_conclusion (l r : Expr) (op : Token) (v w : Option LoxVal)
    (g : F64 → F64 → LoxVal)
    (hl : l.interpret = some (.ok v)) (hr : r.interpret = some (.ok w))
    (heq : Expr.interpret (.binary l op r) = numeric_eval l r op g)
    (hg : op.token_type = .Slash → g = fun a b => .num (a.div b)) :
    ((∀ x : F64, v ≠ some (.num x)) →
      Expr.interpret (.binary l op r) = some (.error ⟨op, "Operands must be numbers."⟩)) ∧
    (∀ x : F64, v = some (.num x) → (∀ y : F64, w ≠ some (.num y)) →
      Expr.interpret (.binary l op r) = some (.error ⟨op, "Operands must be numbers."⟩)) ∧
    (∀ x y : F64, v = some (.num x) → w = some (.num y) →
      ∃ u : LoxVal, Expr.interpret (.binary l op r) = some (.ok (some u))) ∧
    (∀ (x : F64) (z : Q), v = some (.num x) → w = some (.num (.finite z)) → z.num = 0 →
      op.token_type = .Slash →
      Expr.interpret (.binary l op r) = some (.ok (some (.num (x.div (.finite z))))) ∧
      (x.div (.finite z) = .nan ∨ ∃ b : Bool, x.div (.finite z) = .inf b)) := by
  have hspec := numeric_eval_spec l r op g v w hl hr
  rw [heq]
  refine ⟨hspec.1, hspec.2.1, ?_, ?_⟩
  · intro x y hx hy
    exact ⟨_, hspec.2.2 x y hx hy⟩
  · intro x z hx hz hz0 hsl
    have hgd := hg hsl
    subst hgd
    exact ⟨hspec.2.2 x (.finite z) hx hz, div_by_zero_special x z hz0⟩

/-- C6: for every Binary node whose operator is one of `-`, `/`, `*`,
`>`, `>=`, `<`, `<=`: if either operand does not evaluate to a Number,
evaluation fails with the RuntimeError "Operands must be numbers."
carrying the operator token; if both operands are Numbers, evaluation
never returns an error; in particular division by a zero divisor yields
the IEEE-754 result (an infinity or NaN), not a RuntimeError. -/
theorem numeric_binary_operator_semantics (l r : Expr) (op : Token) (v w : Option LoxVal)
    (hop : op.token_type ∈ [TokenType.Minus, .Slash, .Star, .Greater,
      .GreaterEqual, .Less, .LessEqual])
    (hl : l.interpret = some (.ok v)) (hr : r.interpret = some (.ok w)) :
    ((∀ x : F64, v ≠ some (.num x)) →
      Expr.interpret (.binary l op r) = some (.error ⟨op, "Operands must be numbers."⟩)) ∧
    (∀ x : F64, v = some (.num x) → (∀ y : F64, w ≠ some (.num y)) →
      Expr.interpret (.binary l op r) = some (.error ⟨op, "Operands must be numbers."⟩)) ∧
    (∀ x y : F64, v = some (.num x) → w = some (.num y) →
      ∃ u : LoxVal, Expr.interpret (.binary l op r) = some (.ok (some u))) ∧
    (∀ (x : F64) (z : Q), v = some (.num x) → w = some (.num (.finite z)) → z.num = 0 →
      op.token_type = .Slash →
      Expr.interpret (.binary l op r) = some (.ok (some (.num (x.div (.finite z))))) ∧
      (x.div (.finite z) = .nan ∨ ∃ b : Bool, x.div (.finite z) = .inf b)) := by
  simp only [List.mem_cons, List.not_mem_nil, or_false] at hop
  rcases hop with h | h | h | h | h | h | h
  · exact numeric_case_conclusion l r op v w _ hl hr
      ((interpret_numeric_op l r op).1 h) (fun hsl => by simp [h] at hsl)
  · exact numeric_case_conclusion l r op v w _ hl hr
      ((interpret_numeric_op l r op).2.1 h) (fun _ => rfl)
  · exact numeric_case_conclusion l r op v w _ hl hr
      ((interpret_numeric_op l r op).2.2.1 h) (fun hsl => by simp [h] at hsl)
  · exact numeric_case_conclusion l r op v w _ hl hr
      ((interpret_numeric_op l r op).2.2.2.1 h) (fun hsl => by simp [h] at hsl)
  · exact numeric_case_conclusion l r op v w _ hl hr
      ((interpret_numeric_op l r op).2.2.2.2.1 h) (fun hsl => by simp [h] at hsl)
  · exact numeric_case_conclusion l r op v w _ hl hr
      ((interpret_numeric_op l r op).2.2.2.2.2.1 h) (fun hsl => by simp [h] at hsl)
  · exact numeric_case_conclusion l r op v w _ hl hr
      ((interpret_numeric_op l r op).2.2.2.2.2.2 h) (fun hsl => by simp [h] at hsl)

/-- Witness for C6 at a concrete input: `1 / 0` evaluates without a
runtime error, to the model division result (positive infinity). -/
theorem numeric_binary_operator_semantics_witness :
    Expr.interpret (.binary (.literal (some (.num (.finite ⟨1, 1⟩))))
        ⟨.Slash, "/", none, 1⟩ (.literal (some (.num (.finite ⟨0, 1⟩))))) =
      some (.ok (some (.num ((F64.finite ⟨1, 1⟩).div (.finite ⟨0, 1⟩))))) ∧
    ((F64.finite ⟨1, 1⟩).div (.finite ⟨0, 1⟩) = .nan ∨
      ∃ b : Bool, (F64.finite ⟨1, 1⟩).div (.finite ⟨0, 1⟩) = .inf b) :=
  (numeric_binary_operator_semantics
      (.literal (some (.num (.finite ⟨1, 1⟩)))) (.literal (some (.num (.finite ⟨0, 1⟩))))
      ⟨.Slash, "/", none, 1⟩ _ _ (by decide) rfl rfl).2.2.2
    (.finite ⟨1, 1⟩) ⟨0, 1⟩ rfl rfl rfl rfl

/-- C7: evaluating Unary `!` on a sub-expression that evaluates to `v`
yields the Boolean negation of the truthiness of `v`; truthiness is
false exactly for nil and Boolean false, and true for every other value
including any Number (in particular 0) and any Text (in particular the
empty string). -/
theorem bang_negates_truthiness (op : Token) (r : Expr) (v : Option LoxVal)
    (hop : op.token_type = .Bang) (hr : r.interpret = some (.ok v)) :
    Expr.interpret (.unary op r) = some (.ok (some (.bool (!is_truthy v)))) ∧
    is_truthy none = false ∧
    is_truthy (some (.bool false)) = false ∧
    (∀ b : Bool, is_truthy (some (.bool b)) = b) ∧
    (∀ x : F64, is_truthy (some (.num x)) = true) ∧
    (∀ s : String, is_truthy (some (.str s)) = true) := by
  refine ⟨?_, rfl, rfl, fun b => rfl, fun x => rfl, fun s => rfl⟩
  simp only [Expr.interpret, hop, hr]

/-- Witness for C7: `!nil` is true, `!false` is true, and `!0` is false
(Number 0 is truthy). -/
theorem bang_negates_truthiness_witness :
    Expr.interpret (.unary ⟨.Bang, "!", none, 1⟩ (.literal none)) =
      some (.ok (some (.bool true))) ∧
    Expr.interpret (.unary ⟨.Bang, "!", none, 1⟩ (.literal (some (.bool false)))) =
      some (.ok (some (.bool true))) ∧
    Expr.interpret (.unary ⟨.Bang, "!", none, 1⟩
        (.literal (some (.num (.finite ⟨0, 1⟩))))) =
      some (.ok (some (.bool false))) :=
  ⟨(bang_negates_truthiness ⟨.Bang, "!", none, 1⟩ (.literal none) none rfl rfl).1,
   (bang_negates_truthiness ⟨.Bang, "!", none, 1⟩
      (.literal (some (.bool false))) (some (.bool false)) rfl rfl).1,
   (bang_negates_truthiness ⟨.Bang, "!", none, 1⟩
      (.literal (some (.num (.finite ⟨0, 1⟩)))) (some (.num (.finite ⟨0, 1⟩))) rfl rfl).1⟩

/-- C3: for every Binary `+` node: two Numbers yield their sum, two
Texts yield their concatenation, and every other combination of operand
values yields the RuntimeError "Operands must be two numbers or two
strings." carrying the operator token. -/
theorem plus_operator_semantics (l r : Expr) (op : Token) (v w : Option LoxVal)
    (hop : op.token_type = .Plus)
    (hl : l.interpret = some (.ok v)) (hr : r.interpret = some (.ok w)) :
    Expr.interpret (.binary l op r) =
      match v, w with
      | some (.num a), some (.num b) => some (.ok (some (.num (a.add b))))
      | some (.str a), some (.str b) => some (.ok (some (.str (a ++ b))))
      | _, _ => some (.error ⟨op, "Operands must be two numbers or two strings."⟩) := by
  simp only [Expr.interpret, hop, hl, hr]
  rcases v with _ | lv
  · rfl
  · rcases w with _ | rv
    · rcases lv with x | sx | bx <;> rfl
    · rcases lv with x | sx | bx <;> rcases rv with y | sy | bb <;> rfl

/-- Witness for C3: string concatenation works and a mixed
number/string addition is the documented runtime error. -/
theorem plus_operator_semantics_witness :
    Expr.interpret (.binary (.literal (some (.str "foo"))) ⟨.Plus, "+", none, 1⟩
        (.literal (some (.str "bar")))) = some (.ok (some (.str "foobar"))) ∧
    Expr.interpret (.binary (.literal (some (.num (.finite ⟨1, 1⟩)))) ⟨.Plus, "+", none, 1⟩
        (.literal (some (.str "bar")))) =
      some (.error ⟨⟨.Plus, "+", none, 1⟩,
        "Operands must be two numbers or two strings."⟩) :=
  ⟨plus_operator_semantics (.literal (some (.str "foo"))) (.literal (some (.str "bar")))
      ⟨.Plus, "+", none, 1⟩ _ _ rfl rfl rfl,
   plus_operator_semantics (.literal (some (.num (.finite ⟨1, 1⟩))))
      (.literal (some (.str "bar"))) ⟨.Plus, "+", none, 1⟩ _ _ rfl rfl rfl⟩

/-- C4 (code bug): the claim says `==` is type-sensitive structural
equality, in particular that Nil is unequal to every non-Nil value.
But `Expr::equals` checks `a.is_none()` and then unconditionally calls
`b.unwrap()`, so evaluating `1 == nil` (a non-Nil left operand against
a Nil right operand) panics instead of yielding false.  The symmetric
comparison `nil == 1` does yield false. -/
theorem equals_non_nil_vs_nil_panics :
    Expr.interpret (.binary (.literal (some (.num (.finite ⟨1, 1⟩))))
      ⟨.EqualEqual, "==", none, 1⟩ (.literal none)) = none ∧
    Expr.interpret (.binary (.literal none) ⟨.EqualEqual, "==", none, 1⟩
      (.literal (some (.num (.finite ⟨1, 1⟩))))) = some (.ok (some (.bool false))) :=
  ⟨by decide, by decide⟩

/-- Byte length of a character list under UTF-8, matching Rust's byte
indexing of `String`. -/
def utf8_len (cs : List Char) : Nat :=
  (cs.map Char.utf8Size).sum

/-- Drop `n` UTF-8 bytes from the front; `none` when `n` overruns the
list or falls inside a character (not a char boundary). -/
def drop_bytes : List Char → Nat → Option (List Char)
  | cs, 0 => some cs
  | [], Nat.succ _ => none
  | c :: rest, Nat.succ n =>
    if c.utf8Size ≤ n + 1 then drop_bytes rest (n + 1 - c.utf8Size) else none

/-- Take `n` UTF-8 bytes from the front; `none` when `n` overruns the
list or falls inside a character. -/
def take_bytes : List Char → Nat → Option (List Char)
  | _, 0 => some []
  | [], Nat.succ _ => none
  | c :: rest, Nat.succ n =>
    if c.utf8Size ≤ n + 1 then (take_bytes rest (n + 1 - c.utf8Size)).map (c :: ·)
    else none

/-- Rust `str::get(a..b)`: the characters between byte offsets `a` and
`b`, if both are in-range character boundaries and `a ≤ b`. -/
def strGet (cs : List Char) (a b : Nat) : Option (List Char) :=
  if a ≤ b then (drop_bytes cs a).bind (fun rest => take_bytes rest (b - a)) else none

/-- src/scanner/mod.rs `Scanner`.  Rust keeps both `source : String`
and `source_chars : Vec<char>`, built from the same text; here one
character list serves for both views (byte access goes through
`strGet`, character access through list indexing).  `errors` records
the `(line, message)` pairs passed to the `lox::error` reporter. -/
structure ScanState where
  source : List Char
  tokens : List Token
  start : Nat
  current : Nat
  line : Nat
  errors : List (Nat × String)
deriving DecidableEq, Repr

/-- `Scanner::is_at_end`. -/
def ScanState.is_at_end (s : ScanState) : Bool :=
  s.source.length ≤ s.current

/-- `Scanner::peek`: the character at the cursor, or NUL at end. -/
def ScanState.peek (s : ScanState) : Char :=
  (s.source.get? s.current).getD (Char.ofNat 0)

/-- `Scanner::peek_next`. -/
def ScanState.peek_next (s : ScanState) : Char :=
  (s.source.get? (s.current + 1)).getD (Char.ofNat 0)

/-- `Scanner::is_match`: consume the next character if it equals the
expected one. -/
def ScanState.is_match (s : ScanState) (expected : Char) : Bool × ScanState :=
  match s.source.get? s.current with
  | some c =>
    if c ≠ expected then (false, s)
    else (true, { s with current := s.current + 1 })
  | none => (false, s)

/-- The body of the `//` comment loop of `Scanner::scan_token`
(`while *self.peek() != '\n' && !self.is_at_end()`): number of
characters consumed, computed over the remaining character list. -/
def comment_len : List Char → Nat
  | [] => 0
  | c :: rest => if c = '\n' then 0 else comment_len rest + 1

/-- The string-body loop of `Scanner::parse_string`
(`while *self.peek() != '"' && !self.is_at_end()`, bumping the line
counter at each newline): characters consumed and the updated line. -/
def string_scan : List Char → Nat → Nat × Nat
  | [], line => (0, line)
  | c :: rest, line =>
    if c = '"' then (0, line)
    else
      let line' := if c = '\n' then line + 1 else line
      let p := string_scan rest line'
      (p.1 + 1, p.2)

/-- The digit loops of `Scanner::parse_number`
(`while self.peek().is_numeric()`): leading digit count of the
remaining characters. -/
def digits_len : List Char → Nat
  | [] => 0
  | c :: rest => if c.isDigit then digits_len rest + 1 else 0

/-- The loop of `Scanner::parse_identifier`
(`while self.peek().is_alphanumeric()`). -/
def alnum_len : List Char → Nat
  | [] => 0
  | c :: rest => if c.isAlphanum then alnum_len rest + 1 else 0

/-- The `KEYWORDS` phf map of src/scanner/mod.rs as an association
list. -/
def KEYWORDS : List (String × TokenType) :=
  [("and", .And), ("class", .Class), ("else", .Else), ("false", .False),
   ("for", .For), ("fun", .Fun), ("if", .If), ("nil", .Nil),
   ("or", .Or), ("print", .Print), ("return", .Return), ("super", .Super),
   ("this", .This), ("true", .True), ("var", .Var), ("while", .While)]

/-- `Scanner::make_token`: slices the lexeme out of the byte string;
the Rust code `unwrap`s the slice, so a failed slice is a panic
(`none`). -/
def ScanState.make_token (s : ScanState) (token_type : TokenType)
    (literal : Option LoxVal) : Option Token :=
  (strGet s.source s.start s.current).map
    (fun cs => ⟨token_type, String.mk cs, literal, s.line⟩)

/-- `Scanner::make_empty_token`. -/
def ScanState.make_empty_token (s : ScanState) (token_type : TokenType) : Option Token :=
  s.make_token token_type none

/-- Outcome of one `Scanner::scan_token` call: a token, nothing
(whitespace/comment), or a `ScanError` message. -/
inductive ScanOut where
  | token (t : Token)
  | skip
  | err (message : String)
deriving DecidableEq, Repr

/-- `Scanner::parse_string`.  The body loop runs to the closing quote
or end of input; then one `advance` consumes the closing quote (moving
`current` past the end when the string is unterminated); then the
literal is sliced with `source.get(start + 1..current - 1)`, whose
failure is the "Unterminated string." error; finally `make_token`
re-slices the lexeme and panics (`none`) if that slice is out of
bounds. -/
def ScanState.parse_string (s : ScanState) : Option (ScanOut × ScanState) :=
  let p := string_scan (s.source.drop s.current) s.line
  let s1 : ScanState := { s with current := s.current + p.1, line := p.2 }
  let s2 : ScanState := { s1 with current := s1.current + 1 }
  match strGet s2.source (s2.start + 1) (s2.current - 1) with
  | some cs =>
    (s2.make_token .String (some (.str (String.mk cs)))).map (fun t => (.token t, s2))
  | none => some (.err "Unterminated string.", s2)

/-- `Scanner::parse_number`; the `parse::<f64>` of the lexeme is exact
in the model. -/
def parse_float (cs : List Char) : F64 :=
  let intPart := cs.takeWhile (fun c => c ≠ '.')
  let rest := cs.dropWhile (fun c => c ≠ '.')
  match rest with
  | [] => .finite ⟨(intPart.foldl (fun a c => 10 * a + (c.toNat - 48)) 0 : Nat), 1⟩
  | _ :: frac =>
    .finite ⟨(intPart.foldl (fun a c => 10 * a + (c.toNat - 48)) 0 * 10 ^ frac.length
        + frac.foldl (fun a c => 10 * a + (c.toNat - 48)) 0 : Nat), (10 ^ frac.length : Nat)⟩

/-- `Scanner::parse_number`: consume the integer digits, optionally a
`.` followed by at least one digit and the fractional digits, then
slice the lexeme (`unwrap`, so `none` on failure models the panic). -/
def ScanState.parse_number (s : ScanState) : Option (ScanOut × ScanState) :=
  let s1 : ScanState := { s with current := s.current + digits_len (s.source.drop s.current) }
  let s2 : ScanState :=
    if s1.peek = '.' ∧ s1.peek_next.isDigit then
      let sd : ScanState := { s1 with current := s1.current + 1 }
      { sd with current := sd.current + digits_len (sd.source.drop sd.current) }
    else s1
  match strGet s2.source s2.start s2.current with
  | none => none
  | some cs =>
    (s2.make_token .Number (some (.num (parse_float cs)))).map (fun t => (.token t, s2))

/-- `Scanner::parse_identifier`: consume the alphanumeric tail, slice
the text (`unwrap`, so `none` models the panic), and look the text up
in the keyword table. -/
def ScanState.parse_identifier (s : ScanState) : Option (ScanOut × ScanState) :=
  let s1 : ScanState := { s with current := s.current + alnum_len (s.source.drop s.current) }
  match strGet s1.source s1.start s1.current with
  | none => none
  | some cs =>
    let token_type := (KEYWORDS.lookup (String.mk cs)).getD .Identifier
    (s1.make_empty_token token_type).map (fun t => (.token t, s1))

/-- Helper for the single- and two-character operator arms of
`scan_token`: build an empty token (propagating the slice panic). -/
def ScanState.empty_token_out (s : ScanState) (token_type : TokenType) :
    Option (ScanOut × ScanState) :=
  (s.make_empty_token token_type).map (fun t => (.token t, s))

/-- src/scanner/mod.rs `Scanner::scan_token`.  The Rust `match c`
over character literals is rendered as the equivalent chain of
equality tests; `c.is_numeric()` / `c.is_alphabetic()` are the ASCII
classifiers (see the header note). -/
def ScanState.scan_token (s : ScanState) : Option (ScanOut × ScanState) :=
  match s.source.get? s.current with
  | none => some (.skip, { s with current := s.current + 1 })
  | some c =>
    let s : ScanState := { s with current := s.current + 1 }
    if c = '(' then s.empty_token_out .LeftParen
    else if c = ')' then s.empty_token_out .RightParen
    else if c = '{' then s.empty_token_out .LeftBrace
    else if c = '}' then s.empty_token_out .RightBrace
    else if c = ',' then s.empty_token_out .Comma
    else if c = '.' then s.empty_token_out .Dot
    else if c = '-' then s.empty_token_out .Minus
    else if c = '+' then s.empty_token_out .Plus
    else if c = ';' then s.empty_token_out .Semicolon
    else if c = '*' then s.empty_token_out .Star
    else if c = '!' then
      let m := s.is_match '='
      m.2.empty_token_out (if m.1 then .BangEqual else .Bang)
    else if c = '=' then
      let m := s.is_match '='
      m.2.empty_token_out (if m.1 then .EqualEqual else .Equal)
    else if c = '<' then
      let m := s.is_match '='
      m.2.empty_token_out (if m.1 then .LessEqual else .Less)
    else if c = '>' then
      let m := s.is_match '='
      m.2.empty_token_out (if m.1 then .GreaterEqual else .Greater)
    else if c = '/' then
      let m := s.is_match '/'
      if m.1 then
        some (.skip, { m.2 with current := m.2.current + comment_len (m.2.source.drop m.2.current) })
      else m.2.empty_token_out .Slash
    else if c = ' ' then some (.skip, s)
    else if c = Char.ofNat 13 then some (.skip, s)
    else if c = Char.ofNat 9 then some (.skip, s)
    else if c = '\n' then some (.skip, { s with line := s.line + 1 })
    else if c = '"' then s.parse_string
    else if c.isDigit then s.parse_number
    else if c.isAlpha then s.parse_identifier
    else some (.err ("Unexpected character: " ++ c.toString), s)

/-- One iteration's bookkeeping in `Scanner::scan_tokens`: push the
token, or report the error via `lox::error(self.line, ...)` (at the
line of the post-`scan_token` state), or nothing. -/
def apply_out : ScanOut → ScanState → ScanState
  | .token t, s => { s with tokens := s.tokens ++ [t] }
  | .skip, s => s
  | .err msg, s => { s with errors := s.errors ++ [(s.line, msg)] }

/-- The `while !self.is_at_end()` loop of `Scanner::scan_tokens`,
fuelled.  Each iteration sets `start := current` and runs `scan_token`;
`none` is a panic or fuel exhaustion (the fuel supplied by
`scan_tokens` never exhausts, since every iteration advances the
cursor). -/
def scan_loop : Nat → ScanState → Option ScanState
  | 0, _ => none
  | fuel + 1, s =>
    if s.current < s.source.length then
      match ScanState.scan_token { s with start := s.current } with
      | none => none
      | some (out, s') => scan_loop fuel (apply_out out s')
    else some s

/-- src/scanner/mod.rs `Scanner::scan_tokens` for a fresh scanner:
run the loop, then push the end-of-input token with an empty lexeme, no
literal and the final line.  Returns the token list and the reported
errors; `none` models a panic. -/
def scan_tokens (src : List Char) : Option (List Token × List (Nat × String)) :=
  (scan_loop (src.length + 1) ⟨src, [], 0, 0, 1, []⟩).map
    (fun s => (s.tokens ++ [⟨.Eof, "", none, s.line⟩], s.errors))

/-- Scanning the empty source yields exactly the end-of-input token on
line 1 and no errors. -/
theorem scan_tokens_empty : scan_tokens [] = some ([⟨.Eof, "", none, 1⟩], []) := by decide

theorem string_scan_line_le (cs : List Char) (line : Nat) :
    line ≤ (string_scan cs line).2 := by
  induction cs generalizing line with
  | nil => simp [string_scan]
  | cons c rest ih =>
    simp only [string_scan]
    by_cases hc : c = '"'
    · simp [hc]
    · simp only [hc, if_false]
      by_cases hn : c = '\n'
      · simp only [hn, if_pos rfl]
        exact Nat.le_trans (Nat.le_succ line) (ih (line + 1))
      · simp only [if_neg hn]
        exact ih line

theorem make_token_spec (s : ScanState) (tt : TokenType) (lit : Option LoxVal) (t : Token)
    (h : s.make_token tt lit = some t) : t.token_type = tt ∧ t.line = s.line := by
  unfold ScanState.make_token at h
  cases hg : strGet s.source s.start s.current with
  | none => rw [hg] at h; cases h
  | some cs =>
    rw [hg] at h
    simp only [Option.map_some'] at h
    cases h
    exact ⟨rfl, rfl⟩

theorem empty_token_out_spec (s : ScanState) (tt : TokenType) (out : ScanOut) (s' : ScanState)
    (h : s.empty_token_out tt = some (out, s')) :
    s' = s ∧ ∃ t : Token, out = .token t ∧ t.token_type = tt ∧ t.line = s.line := by
  unfold ScanState.empty_token_out at h
  cases hm : s.make_empty_token tt with
  | none => rw [hm] at h; cases h
  | some t =>
    rw [hm] at h
    simp only [Option.map_some'] at h
    cases h
    have := make_token_spec s tt none t hm
    exact ⟨rfl, t, rfl, this.1, this.2⟩

theorem is_match_fields (s : ScanState) (e : Char) :
    ((s.is_match e).2).source = s.source ∧ ((s.is_match e).2).tokens = s.tokens ∧
    ((s.is_match e).2).errors = s.errors ∧ ((s.is_match e).2).start = s.start ∧
    ((s.is_match e).2).line = s.line := by
  unfold ScanState.is_match
  cases s.source.get? s.current with
  | none => exact ⟨rfl, rfl, rfl, rfl, rfl⟩
  | some c =>
    by_cases hc : c ≠ e
    · simp [hc]
    · simp [hc]

theorem lookup_getD_ne_eof (key : String) :
    (KEYWORDS.lookup key).getD .Identifier ≠ .Eof := by
  have main : ∀ (l : List (String × TokenType)), (∀ p ∈ l, p.2 ≠ .Eof) →
      (l.lookup key).getD .Identifier ≠ .Eof := by
    intro l
    induction l with
    | nil => intro _; simp [List.lookup]
    | cons a rest ih =>
      intro hall
      rcases a with ⟨k, v⟩
      simp only [List.lookup]
      cases hk : key == k with
      | true =>
        simp only [Option.getD_some]
        exact hall (k, v) (by simp)
      | false =>
        exact ih (fun p hp => hall p (List.mem_cons_of_mem _ hp))
  exact main KEYWORDS (by decide)

theorem parse_string_spec (s : ScanState) (out : ScanOut) (s' : ScanState)
    (h : s.parse_string = some (out, s')) :
    s'.source = s.source ∧ s'.tokens = s.tokens ∧ s'.errors = s.errors ∧
    s'.start = s.start ∧ s.line ≤ s'.line ∧
    (∀ t : Token, out = .token t → t.token_type = .String ∧ t.line = s'.line) := by
  unfold ScanState.parse_string at h
  dsimp only at h
  split at h
  · rename_i cs hg
    rw [Option.map_eq_some'] at h
    obtain ⟨t, hm, ht⟩ := h
    have hmt := make_token_spec _ _ _ _ hm
    cases ht
    refine ⟨rfl, rfl, rfl, rfl, string_scan_line_le _ _, ?_⟩
    intro u hu
    cases hu
    exact ⟨hmt.1, hmt.2⟩
  · cases h
    exact ⟨rfl, rfl, rfl, rfl, string_scan_line_le _ _, fun t ht => by cases ht⟩

theorem parse_number_spec (s : ScanState) (out : ScanOut) (s' : ScanState)
    (h : s.parse_number = some (out, s')) :
    s'.source = s.source ∧ s'.tokens = s.tokens ∧ s'.errors = s.errors ∧
    s'.start = s.start ∧ s'.line = s.line ∧
    (∀ t : Token, out = .token t → t.token_type = .Number ∧ t.line = s'.line) := by
  unfold ScanState.parse_number at h
  dsimp only at h
  split at h
  · rename_i hg
    cases h
  · rename_i cs hg
    split at h
    · rw [Option.map_eq_some'] at h
      obtain ⟨t, hm, ht⟩ := h
      have hmt := make_token_spec _ _ _ _ hm
      cases ht
      exact ⟨rfl, rfl, rfl, rfl, rfl, fun u hu => by cases hu; exact ⟨hmt.1, hmt.2⟩⟩
    · rw [Option.map_eq_some'] at h
      obtain ⟨t, hm, ht⟩ := h
      have hmt := make_token_spec _ _ _ _ hm
      cases ht
      exact ⟨rfl, rfl, rfl, rfl, rfl, fun u hu => by cases hu; exact ⟨hmt.1, hmt.2⟩⟩

theorem parse_identifier_spec (s : ScanState) (out : ScanOut) (s' : ScanState)
    (h : s.parse_identifier = some (out, s')) :
    s'.source = s.source ∧ s'.tokens = s.tokens ∧ s'.errors = s.errors ∧
    s'.start = s.start ∧ s'.line = s.line ∧
    (∀ t : Token, out = .token t → t.token_type ≠ .Eof ∧ t.line = s'.line) := by
  unfold ScanState.parse_identifier at h
  dsimp only at h
  split at h
  · cases h
  · rename_i cs hg
    rw [Option.map_eq_some'] at h
    obtain ⟨t, hm, ht⟩ := h
    have hmt := make_token_spec _ _ _ _ hm
    cases ht
    refine ⟨rfl, rfl, rfl, rfl, rfl, ?_⟩
    intro u hu
    cases hu
    refine ⟨?_, hmt.2⟩
    rw [hmt.1]
    exact lookup_getD_ne_eof _

theorem empty_out_close (s u : ScanState) (tt : TokenType) (out : ScanOut) (s' : ScanState)
    (h : u.empty_token_out tt = some (out, s'))
    (hu : u.source = s.source ∧ u.tokens = s.tokens ∧ u.errors = s.errors ∧ u.line = s.line)
    (htt : tt ≠ .Eof) :
    s'.source = s.source ∧ s'.tokens = s.tokens ∧ s'.errors = s.errors ∧
    s.line ≤ s'.line ∧
    (∀ t : Token, out = .token t → t.token_type ≠ .Eof ∧ t.line = s'.line) := by
  obtain ⟨hse, t, hout, htt', htl⟩ := empty_token_out_spec _ _ _ _ h
  subst hse
  subst hout
  refine ⟨hu.1, hu.2.1, hu.2.2.1, by rw [hu.2.2.2], ?_⟩
  intro v hv
  cases hv
  exact ⟨by rw [htt']; exact htt, htl⟩

set_option maxHeartbeats 1000000 in
theorem scan_token_spec (s : ScanState) (out : ScanOut) (s' : ScanState)
    (h : s.scan_token = some (out, s')) :
    s'.source = s.source ∧ s'.tokens = s.tokens ∧ s'.errors = s.errors ∧
    s.line ≤ s'.line ∧
    (∀ t : Token, out = .token t → t.token_type ≠ .Eof ∧ t.line = s'.line) := by
  unfold ScanState.scan_token at h
  cases hg : s.source.get? s.current with
  | none =>
    rw [hg] at h
    cases h
    exact ⟨rfl, rfl, rfl, Nat.le_refl _, fun t ht => by cases ht⟩
  | some c =>
    rw [hg] at h
    dsimp only at h
    by_cases hc1 : c = '('
    · rw [if_pos hc1] at h
      exact empty_out_close s _ _ _ _ h ⟨rfl, rfl, rfl, rfl⟩ (by decide)
    rw [if_neg hc1] at h
    by_cases hc2 : c = ')'
    · rw [if_pos hc2] at h
      exact empty_out_close s _ _ _ _ h ⟨rfl, rfl, rfl, rfl⟩ (by decide)
    rw [if_neg hc2] at h
    by_cases hc3 : c = '{'
    · rw [if_pos hc3] at h
      exact empty_out_close s _ _ _ _ h ⟨rfl, rfl, rfl, rfl⟩ (by decide)
    rw [if_neg hc3] at h
    by_cases hc4 : c = '}'
    · rw [if_pos hc4] at h
      exact empty_out_close s _ _ _ _ h ⟨rfl, rfl, rfl, rfl⟩ (by decide)
    rw [if_neg hc4] at h
    by_cases hc5 : c = ','
    · rw [if_pos hc5] at h
      exact empty_out_close s _ _ _ _ h ⟨rfl, rfl, rfl, rfl⟩ (by decide)
    rw [if_neg hc5] at h
    by_cases hc6 : c = '.'
    · rw [if_pos hc6] at h
      exact empty_out_close s _ _ _ _ h ⟨rfl, rfl, rfl, rfl⟩ (by decide)
    rw [if_neg hc6] at h
    by_cases hc7 : c = '-'
    · rw [if_pos hc7] at h
      exact empty_out_close s _ _ _ _ h ⟨rfl, rfl, rfl, rfl⟩ (by decide)
    rw [if_neg hc7] at h
    by_cases hc8 : c = '+'
    · rw [if_pos hc8] at h
      exact empty_out_close s _ _ _ _ h ⟨rfl, rfl, rfl, rfl⟩ (by decide)
    rw [if_neg hc8] at h
    by_cases hc9 : c = ';'
    · rw [if_pos hc9] at h
      exact empty_out_close s _ _ _ _ h ⟨rfl, rfl, rfl, rfl⟩ (by decide)
    rw [if_neg hc9] at h
    by_cases hc10 : c = '*'
    · rw [if_pos hc10] at h
      exact empty_out_close s _ _ _ _ h ⟨rfl, rfl, rfl, rfl⟩ (by decide)
    rw [if_neg hc10] at h
    by_cases hc11 : c = '!'
    · rw [if_pos hc11] at h
      exact empty_out_close s _ _ _ _ h ⟨(is_match_fields _ _).1, (is_match_fields _ _).2.1,
        (is_match_fields _ _).2.2.1, (is_match_fields _ _).2.2.2.2⟩ (by intro hcon; split at hcon <;> cases hcon)
    rw [if_neg hc11] at h
    by_cases hc12 : c = '='
    · rw [if_pos hc12] at h
      exact empty_out_close s _ _ _ _ h ⟨(is_match_fields _ _).1, (is_match_fields _ _).2.1,
        (is_match_fields _ _).2.2.1, (is_match_fields _ _).2.2.2.2⟩ (by intro hcon; split at hcon <;> cases hcon)
    rw [if_neg hc12] at h
    by_cases hc13 : c = '<'
    · rw [if_pos hc13] at h
      exact empty_out_close s _ _ _ _ h ⟨(is_match_fields _ _).1, (is_match_fields _ _).2.1,
        (is_match_fields _ _).2.2.1, (is_match_fields _ _).2.2.2.2⟩ (by intro hcon; split at hcon <;> cases hcon)
    rw [if_neg hc13] at h
    by_cases hc14 : c = '>'
    · rw [if_pos hc14] at h
      exact empty_out_close s _ _ _ _ h ⟨(is_match_fields _ _).1, (is_match_fields _ _).2.1,
        (is_match_fields _ _).2.2.1, (is_match_fields _ _).2.2.2.2⟩ (by intro hcon; split at hcon <;> cases hcon)
    rw [if_neg hc14] at h
    by_cases hc15 : c = '/'
    · rw [if_pos hc15] at h
      split at h
      · cases h
        exact ⟨(is_match_fields _ _).1, (is_match_fields _ _).2.1,
          (is_match_fields _ _).2.2.1, by rw [(is_match_fields _ _).2.2.2.2], fun t ht => by cases ht⟩
      · exact empty_out_close s _ _ _ _ h ⟨(is_match_fields _ _).1, (is_match_fields _ _).2.1,
          (is_match_fields _ _).2.2.1, (is_match_fields _ _).2.2.2.2⟩ (by decide)
    rw [if_neg hc15] at h
    by_cases hc16 : c = ' '
    · rw [if_pos hc16] at h
      cases h
      exact ⟨rfl, rfl, rfl, Nat.le_refl _, fun t ht => by cases ht⟩
    rw [if_neg hc16] at h
    by_cases hc17 : c = Char.ofNat 13
    · rw [if_pos hc17] at h
      cases h
      exact ⟨rfl, rfl, rfl, Nat.le_refl _, fun t ht => by cases ht⟩
    rw [if_neg hc17] at h
    by_cases hc18 : c = Char.ofNat 9
    · rw [if_pos hc18] at h
      cases h
      exact ⟨rfl, rfl, rfl, Nat.le_refl _, fun t ht => by cases ht⟩
    rw [if_neg hc18] at h
    by_cases hc19 : c = '\n'
    · rw [if_pos hc19] at h
      cases h
      exact ⟨rfl, rfl, rfl, Nat.le_succ _, fun t ht => by cases ht⟩
    rw [if_neg hc19] at h
    by_cases hc20 : c = '\"'
    · rw [if_pos hc20] at h
      have hp := parse_string_spec _ _ _ h
      exact ⟨hp.1, hp.2.1, hp.2.2.1, hp.2.2.2.2.1, fun t ht =>
        ⟨(by rw [(hp.2.2.2.2.2 t ht).1]; intro hcon; cases hcon), (hp.2.2.2.2.2 t ht).2⟩⟩
    rw [if_neg hc20] at h
    by_cases hc21 : c.isDigit = true
    · rw [if_pos hc21] at h
      have hp := parse_number_spec _ _ _ h
      exact ⟨hp.1, hp.2.1, hp.2.2.1, by rw [hp.2.2.2.2.1], fun t ht =>
        ⟨(by rw [(hp.2.2.2.2.2 t ht).1]; intro hcon; cases hcon), (hp.2.2.2.2.2 t ht).2⟩⟩
    rw [if_neg hc21] at h
    by_cases hc22 : c.isAlpha = true
    · rw [if_pos hc22] at h
      have hp := parse_identifier_spec _ _ _ h
      exact ⟨hp.1, hp.2.1, hp.2.2.1, by rw [hp.2.2.2.2.1], fun t ht => hp.2.2.2.2.2 t ht⟩
    rw [if_neg hc22] at h
    cases h
    exact ⟨rfl, rfl, rfl, Nat.le_refl _, fun t ht => by cases ht⟩

theorem scan_loop_invariant (fuel : Nat) (s sf : ScanState)
    (h : scan_loop fuel s = some sf)
    (hinv : ∀ t ∈ s.tokens, t.token_type ≠ .Eof ∧ t.line ≤ s.line) :
    (∀ t ∈ sf.tokens, t.token_type ≠ .Eof ∧ t.line ≤ sf.line) ∧ s.line ≤ sf.line := by
  induction fuel generalizing s with
  | zero => cases h
  | succ fuel ih =>
    unfold scan_loop at h
    split at h
    · cases hst : ScanState.scan_token { s with start := s.current } with
      | none => rw [hst] at h; cases h
      | some p =>
        rw [hst] at h
        obtain ⟨out, s1⟩ := p
        have hspec := scan_token_spec _ _ _ hst
        have hline1 : s.line ≤ s1.line := hspec.2.2.2.1
        have happ_line : (apply_out out s1).line = s1.line := by cases out <;> rfl
        have hinv' : ∀ t ∈ (apply_out out s1).tokens,
            t.token_type ≠ .Eof ∧ t.line ≤ (apply_out out s1).line := by
          cases out with
          | token t =>
            intro u hu
            simp only [apply_out] at hu ⊢
            rw [hspec.2.1] at hu
            rcases List.mem_append.mp hu with hmem | hmem
            · have hh := hinv u hmem
              exact ⟨hh.1, Nat.le_trans hh.2 hline1⟩
            · have hu' : u = t := by simpa using hmem
              subst hu'
              have hh := hspec.2.2.2.2 u rfl
              exact ⟨hh.1, Nat.le_of_eq hh.2⟩
          | skip =>
            intro u hu
            simp only [apply_out] at hu ⊢
            rw [hspec.2.1] at hu
            have hh := hinv u hu
            exact ⟨hh.1, Nat.le_trans hh.2 hline1⟩
          | err m =>
            intro u hu
            simp only [apply_out] at hu ⊢
            rw [hspec.2.1] at hu
            have hh := hinv u hu
            exact ⟨hh.1, Nat.le_trans hh.2 hline1⟩
        have hres := ih (apply_out out s1) h hinv'
        refine ⟨hres.1, Nat.le_trans hline1 ?_⟩
        rw [← happ_line]
        exact hres.2
    · cases h
      exact ⟨hinv, Nat.le_refl _⟩

/-- C8 counterexample: the claim quantifies over every input, but on
the input consisting of an unterminated string literal the scanner
panics and produces no token sequence at all (see C1), so no
Eof-terminated sequence results. -/
theorem eof_invariant_counterexample : scan_tokens ("\"x".toList) = none := by decide

/-- C8 (amended): for every input on which scanning completes and
returns a token sequence (rather than panicking on an unterminated
string), the sequence is non-empty and ends with exactly one
end-of-input token carrying the final (largest) line number, an empty
lexeme and no literal payload; the Eof kind occurs nowhere else in the
sequence. -/
theorem eof_invariant (src : List Char) (ts : List Token) (errs : List (Nat × String))
    (h : scan_tokens src = some (ts, errs)) :
    ts ≠ [] ∧ ∃ (pre : List Token) (line : Nat),
      ts = pre ++ [⟨.Eof, "", none, line⟩] ∧
      ∀ t ∈ pre, t.token_type ≠ .Eof ∧ t.line ≤ line := by
  unfold scan_tokens at h
  cases hl : scan_loop (src.length + 1) ⟨src, [], 0, 0, 1, []⟩ with
  | none => rw [hl] at h; cases h
  | some sf =>
    rw [hl] at h
    simp only [Option.map_some'] at h
    cases h
    have hinv := scan_loop_invariant _ _ _ hl (by intro t ht; cases ht)
    exact ⟨by simp, sf.tokens, sf.line, rfl, fun t ht => hinv.1 t ht⟩

/-- Witness for C8 at the concrete input "1". -/
theorem eof_invariant_witness :
    ([⟨.Number, "1", some (.num (.finite ⟨1, 1⟩)), 1⟩, ⟨.Eof, "", none, 1⟩] : List Token) ≠ [] ∧
    ∃ (pre : List Token) (line : Nat),
      ([⟨.Number, "1", some (.num (.finite ⟨1, 1⟩)), 1⟩, ⟨.Eof, "", none, 1⟩] : List Token) =
        pre ++ [⟨.Eof, "", none, line⟩] ∧
      ∀ t ∈ pre, t.token_type ≠ .Eof ∧ t.line ≤ line :=
  eof_invariant ("1".toList)
    [⟨.Number, "1", some (.num (.finite ⟨1, 1⟩)), 1⟩, ⟨.Eof, "", none, 1⟩] [] (by decide)

theorem scan_token_unexpected (s : ScanState) (c : Char)
    (h1 : s.source.get? s.current = some c)
    (hbad : c ∉ ['(', ')', '{', '}', ',', '.', '-', '+', ';', '*', '!', '=', '<', '>', '/',
      ' ', Char.ofNat 13, Char.ofNat 9, '\n', '"'])
    (hd : c.isDigit = false) (ha : c.isAlpha = false) :
    s.scan_token = some (.err ("Unexpected character: " ++ c.toString),
      { s with current := s.current + 1 }) := by
  simp only [List.mem_cons, List.not_mem_nil, or_false, not_or] at hbad
  obtain ⟨b1, b2, b3, b4, b5, b6, b7, b8, b9, b10, b11, b12, b13, b14, b15, b16, b17, b18,
    b19, b20⟩ := hbad
  unfold ScanState.scan_token
  rw [h1]
  dsimp only
  rw [if_neg b1, if_neg b2, if_neg b3, if_neg b4, if_neg b5, if_neg b6, if_neg b7,
    if_neg b8, if_neg b9, if_neg b10, if_neg b11, if_neg b12, if_neg b13, if_neg b14,
    if_neg b15, if_neg b16, if_neg b17, if_neg b18, if_neg b19, if_neg b20,
    if_neg (by rw [hd]; exact Bool.false_ne_true),
    if_neg (by rw [ha]; exact Bool.false_ne_true)]

/-- C9 counterexample: the claim says the reported message is exactly
"Unexpected character.", but the code formats the offending character
into the message: scanning "@" reports "Unexpected character: @". -/
theorem unexpected_char_message_counterexample :
    scan_tokens ("@".toList) =
      some ([⟨.Eof, "", none, 1⟩], [(1, "Unexpected character: @")]) ∧
    ("Unexpected character: @" : String) ≠ "Unexpected character." :=
  ⟨by decide, by decide⟩

/-- C9 (amended): for every character that is not a recognized
punctuation or operator character, whitespace, newline, a quote, an
ASCII digit or an ASCII letter, `scan_token` consumes exactly that one
character and produces no token but the ScanError
"Unexpected character: " followed by the character, and the scanning
loop records that message, at the current line, in the reported
errors and continues. -/
theorem unexpected_char_reported (s : ScanState) (c : Char) (fuel : Nat)
    (h1 : s.source.get? s.current = some c)
    (hbad : c ∉ ['(', ')', '{', '}', ',', '.', '-', '+', ';', '*', '!', '=', '<', '>', '/',
      ' ', Char.ofNat 13, Char.ofNat 9, '\n', '"'])
    (hd : c.isDigit = false) (ha : c.isAlpha = false) :
    s.scan_token = some (.err ("Unexpected character: " ++ c.toString),
      { s with current := s.current + 1 }) ∧
    scan_loop (fuel + 1) s =
      scan_loop fuel
        { s with
          start := s.current,
          current := s.current + 1,
          errors := s.errors ++ [(s.line, "Unexpected character: " ++ c.toString)] } := by
  refine ⟨scan_token_unexpected s c h1 hbad hd ha, ?_⟩
  have hlt : s.current < s.source.length := List.get?_eq_some.mp h1 |>.1
  have hstep := scan_token_unexpected { s with start := s.current } c h1 hbad hd ha
  simp only [scan_loop, if_pos hlt, hstep, apply_out]

/-- Witness for C9 at the concrete character '@'. -/
theorem unexpected_char_reported_witness :
    ScanState.scan_token ⟨"@".toList, [], 0, 0, 1, []⟩ =
      some (.err ("Unexpected character: " ++ ('@').toString),
        ⟨"@".toList, [], 0, 1, 1, []⟩) ∧
    scan_loop 2 ⟨"@".toList, [], 0, 0, 1, []⟩ =
      scan_loop 1 ⟨"@".toList, [], 0, 0 + 1, 1,
        [(1, "Unexpected character: " ++ ('@').toString)]⟩ :=
  unexpected_char_reported ⟨"@".toList, [], 0, 0, 1, []⟩ '@' 1 rfl (by decide) rfl rfl

/-- C1 (code bug): the claim says an unterminated string reports
"Unterminated string." and scanning continues to the Eof token.  In the
code, `parse_string` runs its loop to end of input, then `advance`
moves `current` to `source.len() + 1`; the literal slice
`source.get(start + 1..current - 1)` still succeeds (its end is
`source.len()`), so the "Unterminated string." branch is not taken, and
`make_token`'s `source.get(start..current).unwrap()` then panics on the
out-of-range end `source.len() + 1`.  Scanning "\"abc" panics and
produces no token stream. -/
theorem unterminated_string_panics : scan_tokens ("\"abc".toList) = none := by decide

/-- C2 (code bug): the claim says scanning is total and never panics.
Scanning the one-character source consisting of a double quote panics,
by the same out-of-range lexeme slice as in C1 (and non-ASCII inputs
panic on byte-misaligned slices in `parse_identifier`). -/
theorem scan_not_total : scan_tokens ("\"".toList) = none := by decide

/-- src/parser/mod.rs `Parser` (token list plus cursor). -/
structure PState where
  tokens : List Token
  current : Nat
deriving DecidableEq, Repr

/-- src/parser/mod.rs `ParseError`. -/
structure ParseError where
  message : String
deriving DecidableEq, Repr

/-- Parse result: `none` models a panic (an `unwrap` of a missing
token) or fuel exhaustion, `Except.error` a `ParseError`. -/
abbrev PResult := Option (Except ParseError (Expr × PState))

/-- `Parser::check`: discriminant comparison of the peeked token's
type (the `TokenType` variants carry no data, so discriminant equality
is constructor equality). -/
def PState.check (st : PState) (token_type : TokenType) : Bool :=
  match st.tokens.get? st.current with
  | some t => t.token_type = token_type
  | none => false

/-- `Parser::is_at_end`. -/
def PState.is_at_end (st : PState) : Bool :=
  match st.tokens.get? st.current with
  | some t => t.token_type = .Eof
  | none => true

/-- `Parser::advance` (the returned `previous()` reference is modelled
at the call sites that use it). -/
def PState.advance (st : PState) : PState :=
  if st.is_at_end then st else { st with current := st.current + 1 }

/-- `Parser::previous`: the token before the cursor; the Rust callers
`unwrap` it, so `none` models their panic. -/
def PState.previous (st : PState) : Option Token :=
  st.tokens.get? (st.current - 1)

/-- `Parser::is_match`: try each candidate type in order; on the first
`check` success, `advance` and report true. -/
def PState.is_match : PState → List TokenType → Bool × PState
  | st, [] => (false, st)
  | st, token_type :: rest =>
    if st.check token_type then (true, st.advance) else st.is_match rest

/-- `Parser::consume`: on `check` failure this calls
`self.peek().unwrap()` to report the error, so a missing peek is a
panic (`none`). -/
def PState.consume (st : PState) (token_type : TokenType) (message : String) :
    Option (Except ParseError (Token × PState)) :=
  if st.check token_type then
    match st.advance.previous with
    | none => none
    | some t => some (.ok (t, st.advance))
  else
    match st.tokens.get? st.current with
    | none => none
    | some _ => some (.error ⟨message⟩)

/-- The grammar rules of src/parser/mod.rs, one constructor per
recursive-descent procedure.  `bin_loop next ops acc` is the `while
self.is_match(token_types)` fold inside the generic `Parser::binary`
helper, with `next` the higher-precedence operand rule and `acc` the
expression accumulated so far. -/
inductive PRule where
  | expression
  | equality
  | comparison
  | term
  | factor
  | unary
  | primary
  | bin_loop (next : PRule) (ops : List TokenType) (acc : Expr)
deriving DecidableEq, Repr

/-- The mutually recursive rule procedures of src/parser/mod.rs
(`expression`, `equality`, `comparison`, `term`, `factor`, `unary`,
`primary` and the shared `binary` loop), as one fuelled dispatcher.
Each Rust call maps to a recursive call at smaller fuel; the fuel
supplied by `parse` dominates the number of calls the descent can
make. -/
def prule : Nat → PRule → PState → PResult
  | 0, _, _ => none
  | fuel + 1, r, st =>
    match r with
    | .expression => prule fuel .equality st
    | .equality =>
      match prule fuel .comparison st with
      | some (.ok (e, st')) =>
        prule fuel (.bin_loop .comparison [.BangEqual, .EqualEqual] e) st'
      | other => other
    | .comparison =>
      match prule fuel .term st with
      | some (.ok (e, st')) =>
        prule fuel (.bin_loop .term [.Greater, .GreaterEqual, .Less, .LessEqual] e) st'
      | other => other
    | .term =>
      match prule fuel .factor st with
      | some (.ok (e, st')) => prule fuel (.bin_loop .factor [.Minus, .Plus] e) st'
      | other => other
    | .factor =>
      match prule fuel .unary st with
      | some (.ok (e, st')) => prule fuel (.bin_loop .unary [.Slash, .Star] e) st'
      | other => other
    | .bin_loop next ops acc =>
      let m := st.is_match ops
      if m.1 then
        match m.2.previous with
        | none => none
        | some op =>
          match prule fuel next m.2 with
          | some (.ok (right, st')) =>
            prule fuel (.bin_loop next ops (.binary acc op right)) st'
          | other => other
      else some (.ok (acc, m.2))
    | .unary =>
      let m := st.is_match [.Bang, .Minus]
      if m.1 then
        match m.2.previous with
        | none => none
        | some op =>
          match prule fuel .unary m.2 with
          | some (.ok (right, st')) => some (.ok (.unary op right, st'))
          | other => other
      else prule fuel .primary st
    | .primary =>
      let m1 := st.is_match [.False]
      if m1.1 then some (.ok (.literal (some (.bool false)), m1.2))
      else
        let m2 := m1.2.is_match [.True]
        if m2.1 then some (.ok (.literal (some (.bool true)), m2.2))
        else
          let m3 := m2.2.is_match [.Nil]
          if m3.1 then some (.ok (.literal none, m3.2))
          else
            let m4 := m3.2.is_match [.Number, .String]
            if m4.1 then
              match m4.2.previous with
              | none => none
              | some t => some (.ok (.literal t.literal, m4.2))
            else
              let m5 := m4.2.is_match [.LeftParen]
              if m5.1 then
                match prule fuel .expression m5.2 with
                | some (.ok (e, st')) =>
                  match st'.consume .RightParen "Expect ')' after expression." with
                  | none => none
                  | some (.error pe) => some (.error pe)
                  | some (.ok (_, st'')) => some (.ok (.grouping e, st''))
                | other => other
              else
                match m5.2.tokens.get? m5.2.current with
                | none => none
                | some _ => some (.error ⟨"Expect expression."⟩)

/-- Fuel budget used by `parse`: ample for the descent (each consumed
token costs a bounded number of calls). -/
def parse_fuel (tokens : List Token) : Nat :=
  10 * (tokens.length + 1)

/-- src/parser/mod.rs `Parser::parse`: `self.expression().ok()` — a
parse error (or panic) yields `none`, and any tokens left after the
leading expression are simply not consulted. -/
def parse (tokens : List Token) : Option Expr :=
  match prule (parse_fuel tokens) .expression ⟨tokens, 0⟩ with
  | some (.ok (e, _)) => some e
  | _ => none

/-- C10: for every Eof-terminated token stream that begins with a
well-formed expression (i.e. on which the `expression` rule succeeds,
stopping at some position), `parse` succeeds and returns that leading
expression; the trailing tokens are ignored and cause no parse
error. -/
theorem parse_returns_leading_expression (ts : List Token) (e : Expr) (st' : PState)
    (h : prule (parse_fuel ts) .expression ⟨ts, 0⟩ = some (.ok (e, st'))) :
    parse ts = some e := by
  unfold parse
  rw [h]

/-- Witness for C10: the token stream of "1 2" (as produced by the
scanner) parses to Literal(1), ignoring the trailing Number token. -/
theorem parse_returns_leading_expression_witness :
    scan_tokens ("1 2".toList) =
      some ([⟨.Number, "1", some (.num (.finite ⟨1, 1⟩)), 1⟩,
             ⟨.Number, "2", some (.num (.finite ⟨2, 1⟩)), 1⟩,
             ⟨.Eof, "", none, 1⟩], []) ∧
    parse [⟨.Number, "1", some (.num (.finite ⟨1, 1⟩)), 1⟩,
           ⟨.Number, "2", some (.num (.finite ⟨2, 1⟩)), 1⟩,
           ⟨.Eof, "", none, 1⟩] =
      some (.literal (some (.num (.finite ⟨1, 1⟩)))) :=
  ⟨by decide,
   parse_returns_leading_expression
     [⟨.Number, "1", some (.num (.finite ⟨1, 1⟩)), 1⟩,
      ⟨.Number, "2", some (.num (.finite ⟨2, 1⟩)), 1⟩,
      ⟨.Eof, "", none, 1⟩]
     (.literal (some (.num (.finite ⟨1, 1⟩))))
     ⟨[⟨.Number, "1", some (.num (.finite ⟨1, 1⟩)), 1⟩,
       ⟨.Number, "2", some (.num (.finite ⟨2, 1⟩)), 1⟩,
       ⟨.Eof, "", none, 1⟩], 1⟩
     (by decide)⟩

/-- The scan-parse-evaluate pipeline of src/lox.rs `run` (with the
evaluation outcome returned rather than printed): scan the source,
parse the token stream, interpret the expression.  The outer `none`
covers a scanner panic or a parse failure/panic; the inner `EvalResult`
is the evaluation outcome as in `Expr.interpret`. -/
def run_pipeline (source : String) : Option EvalResult :=
  match scan_tokens source.toList with
  | none => none
  | some (ts, _) =>
    match parse ts with
    | none => none
    | some e => some e.interpret

/-- C5 counterexample: evaluating the parse of "-123 * 45.67" yields
exactly -5617.41, not -5617.91 as the claim states; the difference is
exactly 1/2, far beyond any float epsilon. -/
theorem neg_mul_eval_counterexample :
    run_pipeline "-123 * 45.67" =
      some (some (.ok (some (.num (.finite ⟨-561741, 100⟩))))) ∧
    Q.beq ⟨-561741, 100⟩ ⟨-561791, 100⟩ = false ∧
    Q.beq (Q.sub ⟨-561741, 100⟩ ⟨-561791, 100⟩) ⟨1, 2⟩ = true :=
  ⟨by decide, by decide, by decide⟩

/-- C5 (amended): left-associative binary rules fold each matching
operator into a Binary node with the accumulated result as left child
(witnessed by "1 - 2 - 3" producing a left-leaning tree); the token
stream of "-123 * 45.67" parses to
Binary('*', Unary('-', Literal(123)), Literal(45.67)), and evaluating
that tree yields Number(-5617.41) exactly (the claim's -5617.91 is off
by 1/2). -/
theorem neg_mul_parse_eval :
    scan_tokens ("-123 * 45.67".toList) =
      some ([⟨.Minus, "-", none, 1⟩,
             ⟨.Number, "123", some (.num (.finite ⟨123, 1⟩)), 1⟩,
             ⟨.Star, "*", none, 1⟩,
             ⟨.Number, "45.67", some (.num (.finite ⟨4567, 100⟩)), 1⟩,
             ⟨.Eof, "", none, 1⟩], []) ∧
    parse [⟨.Minus, "-", none, 1⟩,
           ⟨.Number, "123", some (.num (.finite ⟨123, 1⟩)), 1⟩,
           ⟨.Star, "*", none, 1⟩,
           ⟨.Number, "45.67", some (.num (.finite ⟨4567, 100⟩)), 1⟩,
           ⟨.Eof, "", none, 1⟩] =
      some (.binary
        (.unary ⟨.Minus, "-", none, 1⟩ (.literal (some (.num (.finite ⟨123, 1⟩)))))
        ⟨.Star, "*", none, 1⟩
        (.literal (some (.num (.finite ⟨4567, 100⟩))))) ∧
    Expr.interpret (.binary
        (.unary ⟨.Minus, "-", none, 1⟩ (.literal (some (.num (.finite ⟨123, 1⟩)))))
        ⟨.Star, "*", none, 1⟩
        (.literal (some (.num (.finite ⟨4567, 100⟩))))) =
      some (.ok (some (.num (.finite ⟨-561741, 100⟩)))) ∧
    scan_tokens ("1 - 2 - 3".toList) =
      some ([⟨.Number, "1", some (.num (.finite ⟨1, 1⟩)), 1⟩,
             ⟨.Minus, "-", none, 1⟩,
             ⟨.Number, "2", some (.num (.finite ⟨2, 1⟩)), 1⟩,
             ⟨.Minus, "-", none, 1⟩,
             ⟨.Number, "3", some (.num (.finite ⟨3, 1⟩)), 1⟩,
             ⟨.Eof, "", none, 1⟩], []) ∧
    parse [⟨.Number, "1", some (.num (.finite ⟨1, 1⟩)), 1⟩,
           ⟨.Minus, "-", none, 1⟩,
           ⟨.Number, "2", some (.num (.finite ⟨2, 1⟩)), 1⟩,
           ⟨.Minus, "-", none, 1⟩,
           ⟨.Number, "3", some (.num (.finite ⟨3, 1⟩)), 1⟩,
           ⟨.Eof, "", none, 1⟩] =
      some (.binary
        (.binary (.literal (some (.num (.finite ⟨1, 1⟩)))) ⟨.Minus, "-", none, 1⟩
          (.literal (some (.num (.finite ⟨2, 1⟩)))))
        ⟨.Minus, "-", none, 1⟩
        (.literal (some (.num (.finite ⟨3, 1⟩))))) :=
  ⟨by decide, by decide, by decide, by decide, by decide⟩
